import Mathlib

/-!
Verification of the Modbus RTU serial codec and the UDP transport retry loop
from `data_reader/models.py` of SME_UnB.

The codec part (`ModbusRTU`) is embedded as pure functions on `List Nat`
(byte values): request-frame construction (`create_messages`), the Modbus
CRC16 (`computate_crc`, `check_crc`) and the integer/float response decoders.
Host endianness (Python's `sys.byteorder`) is an explicit `Bool` parameter
(`true` = little-endian host).

The transport part (`UdpProtocol`) is embedded by replacing the socket with
an outcome oracle: for each retry pass and each frame index the oracle says
whether the send/receive raised `socket.timeout`, raised another
`socket.error`, or delivered a reply payload.  The Python `while` loop of
`manage_received_messages` is translated into a fuel-indexed recursion whose
fuel strictly exceeds the loop's maximal number of iterations, so that the
function is structurally recursive and evaluates by `rfl`.
-/

namespace DataReader

/-- One round of the CRC16 inner loop: `lsb = crc & 1; crc >>= 1;
if lsb: crc ^= 0xA001` (from `ModbusRTU._computate_crc`). -/
def crcRound (crc : Nat) : Nat :=
  if crc &&& 1 = 1 then (crc >>> 1) ^^^ 0xA001 else crc >>> 1

/-- `k` successive CRC rounds (the `for i in range(8)` loop body iterated). -/
def crcRounds : Nat → Nat → Nat
  | 0, crc => crc
  | k + 1, crc => crcRounds k (crcRound crc)

/-- Processing one message byte: `crc ^= next_byte` followed by eight rounds. -/
def crcByte (crc b : Nat) : Nat := crcRounds 8 (crc ^^^ b)

/-- `ModbusRTU._computate_crc`: fold the per-byte step over the message,
starting from `0xFFFF`. -/
def computate_crc (packaged_message : List Nat) : Nat :=
  packaged_message.foldl crcByte 0xFFFF

/-- `ModbusRTU._check_crc`: a frame is CRC-valid iff recomputing the CRC over
the whole frame (trailing CRC bytes included) yields `0`. -/
def check_crc (packaged_message : List Nat) : Bool :=
  computate_crc packaged_message == 0

/-- `struct.pack("<H", crc)`: the CRC as two bytes, low byte first. -/
def pack_crc (crc : Nat) : List Nat := [crc % 256, crc / 256]

theorem crcRound_two_mul (m : Nat) : crcRound (2 * m) = m := by
  unfold crcRound
  have h1 : 2 * m &&& 1 = 0 := by
    rw [Nat.and_one_is_mod]
    omega
  rw [h1, if_neg (by decide : ¬(0 : Nat) = 1), Nat.shiftRight_eq_div_pow, pow_one]
  omega

theorem crcRounds_two_pow_mul : ∀ (k h : Nat), crcRounds k (2 ^ k * h) = h
  | 0, h => by simp [crcRounds]
  | k + 1, h => by
    show crcRounds k (crcRound (2 ^ (k + 1) * h)) = h
    rw [show 2 ^ (k + 1) * h = 2 * (2 ^ k * h) by ring, crcRound_two_mul]
    exact crcRounds_two_pow_mul k h

theorem xor_mod_256 (c : Nat) : c ^^^ c % 256 = 2 ^ 8 * (c / 256) := by
  have h : 2 ^ 8 * (c / 256) = (c >>> 8) <<< 8 := by
    rw [Nat.shiftLeft_eq, Nat.shiftRight_eq_div_pow]
    norm_num
    ring
  rw [h]
  apply Nat.eq_of_testBit_eq
  intro i
  rw [Nat.testBit_xor, Nat.testBit_shiftLeft,
    show (256 : Nat) = 2 ^ 8 by norm_num, Nat.testBit_mod_two_pow]
  by_cases hi : i < 8
  · simp [hi, Nat.not_le.mpr hi]
  · have h8 : 8 ≤ i := Nat.not_lt.mp hi
    rw [Nat.testBit_shiftRight, show 8 + (i - 8) = i by omega]
    simp [hi, h8]

theorem crcByte_low (c : Nat) : crcByte c (c % 256) = c / 256 := by
  unfold crcByte
  rw [xor_mod_256, crcRounds_two_pow_mul]

theorem crcByte_self (c : Nat) : crcByte c c = 0 := by
  unfold crcByte
  rw [Nat.xor_self]
  rfl

/-- Appending a message's own CRC (stored little-endian) drives the CRC
accumulator to `0`. -/
theorem computate_crc_append_self (msg : List Nat) :
    computate_crc (msg ++ pack_crc (computate_crc msg)) = 0 := by
  unfold computate_crc pack_crc
  rw [List.foldl_append]
  show crcByte (crcByte (List.foldl crcByte 0xFFFF msg)
    (List.foldl crcByte 0xFFFF msg % 256)) (List.foldl crcByte 0xFFFF msg / 256) = 0
  rw [crcByte_low]
  exact crcByte_self _

/-- C3: appending a message's own CRC as two little-endian bytes yields a
sequence whose CRC16 is exactly `0`; hence `_check_crc` accepts a frame iff
recomputing the CRC over the entire frame (trailing CRC included) yields `0`. -/
theorem c3_crc_append_self_and_check :
    (∀ msg : List Nat, computate_crc (msg ++ pack_crc (computate_crc msg)) = 0) ∧
    (∀ frame : List Nat, check_crc frame = true ↔ computate_crc frame = 0) := by
  constructor
  · exact computate_crc_append_self
  · intro frame
    unfold check_crc
    exact beq_iff_eq

/-- The exception message of `RegisterAddressException` raised by
`ModbusRTU.create_messages` on a malformed register kind. -/
def wrong_register_message : String := "Wrong register address type."

/-- `struct.pack("2B", 0x01, 0x03) + struct.pack(">2H", address, quantity)`:
unit id, function code, then address and quantity as big-endian 16-bit words. -/
def message_body (address quantity : Nat) : List Nat :=
  [0x01, 0x03, address / 256, address % 256, quantity / 256, quantity % 256]

/-- One packaged request frame: the six header bytes followed by their CRC in
little-endian order (`packaged_message + crc`). -/
def make_frame (address quantity : Nat) : List Nat :=
  message_body address quantity ++ pack_crc (computate_crc (message_body address quantity))

/-- `ModbusRTU.create_messages`: one frame per register `(address, kind)`, in
order; kind `0` (`int_addr`) reads 1 word, kind `1` (`float_addr`) reads 2
words, any other kind raises `RegisterAddressException`. -/
def create_messages : List (Nat × Nat) → Except String (List (List Nat))
  | [] => Except.ok []
  | (address, kind) :: rest =>
    if kind = 0 then
      match create_messages rest with
      | Except.ok msgs => Except.ok (make_frame address 1 :: msgs)
      | Except.error e => Except.error e
    else if kind = 1 then
      match create_messages rest with
      | Except.ok msgs => Except.ok (make_frame address 2 :: msgs)
      | Except.error e => Except.error e
    else
      Except.error wrong_register_message

/-- Modelled from the spec's frame description (§4.1): unit id `0x01`,
function code `0x03`, the 16-bit start address big-endian, the 16-bit
quantity big-endian (1 word for Integer kind `0`, 2 words for Float kind
`1`), then the CRC of the six preceding bytes stored little-endian. -/
def spec_frame (register : Nat × Nat) : List Nat :=
  let quantity := if register.2 = 0 then 1 else 2
  let body := [0x01, 0x03, register.1 / 256, register.1 % 256, 0, quantity]
  body ++ [computate_crc body % 256, computate_crc body / 256]

theorem spec_frame_int (address : Nat) : spec_frame (address, 0) = make_frame address 1 := by
  simp [spec_frame, make_frame, message_body, pack_crc]

theorem spec_frame_float (address : Nat) : spec_frame (address, 1) = make_frame address 2 := by
  simp [spec_frame, make_frame, message_body, pack_crc]

theorem create_messages_map (registers : List (Nat × Nat))
    (h : ∀ r ∈ registers, r.2 = 0 ∨ r.2 = 1) :
    create_messages registers = Except.ok (registers.map spec_frame) := by
  induction registers with
  | nil => rfl
  | cons r rest ih =>
    obtain ⟨address, kind⟩ := r
    have hr := h (address, kind) (List.mem_cons_self _ _)
    have hrest := ih (fun x hx => h x (List.mem_cons_of_mem _ hx))
    rcases hr with h0 | h1
    · simp only at h0
      subst h0
      simp [create_messages, hrest, spec_frame_int]
    · simp only at h1
      subst h1
      simp [create_messages, hrest, spec_frame_float]

/-- C2: for register lists whose every kind is Integer (`0`) or Float (`1`),
`create_messages` yields one frame per register in input order, each frame
being unit id `0x01`, function code `0x03`, address big-endian, quantity
big-endian (1 for Integer, 2 for Float), then the CRC of the six header bytes
little-endian; each frame is 8 bytes and its trailing CRC validates. -/
theorem c2_create_messages_frames (registers : List (Nat × Nat))
    (hkind : ∀ r ∈ registers, r.2 = 0 ∨ r.2 = 1)
    (haddr : ∀ r ∈ registers, r.1 < 65536) :
    create_messages registers = Except.ok (registers.map spec_frame) ∧
    (registers.map spec_frame).length = registers.length ∧
    (∀ r ∈ registers, (spec_frame r).length = 8 ∧
      computate_crc (spec_frame r) = 0 ∧
      256 * (r.1 / 256) + r.1 % 256 = r.1 ∧ r.1 / 256 < 256) := by
  refine ⟨create_messages_map registers hkind, List.length_map _ _, ?_⟩
  intro r hr
  have ha := haddr r hr
  refine ⟨?_, ?_, ?_, ?_⟩
  · simp [spec_frame]
  · have : spec_frame r =
        (let quantity := if r.2 = 0 then 1 else 2;
         let body := [0x01, 0x03, r.1 / 256, r.1 % 256, 0, quantity];
         body ++ pack_crc (computate_crc body)) := by
      simp [spec_frame, pack_crc]
    rw [this]
    exact computate_crc_append_self _
  · omega
  · omega

/-- C2 witness: a concrete two-register list (one Integer at `0x10`, one
Float at `0x20`) builds exactly the spec-described frames. -/
theorem c2_witness :
    create_messages [(16, 0), (32, 1)] =
      Except.ok ([(16, 0), (32, 1)].map spec_frame) :=
  (c2_create_messages_frames [(16, 0), (32, 1)]
    (by intro r hr; fin_cases hr <;> simp)
    (by intro r hr; fin_cases hr <;> norm_num)).1

/-- Python `range(0, n, s)` for a positive step `s`. -/
def rangeStep (n s : Nat) : List Nat :=
  (List.range ((n + s - 1) / s)).map (fun k => k * s)

/-- `struct.unpack("1h", bytes)`: native-order signed 16-bit interpretation
of a two-byte buffer; `little = true` means a little-endian host. -/
def unpack_int16 (little : Bool) (bytes : List Nat) : Int :=
  let u := if little then bytes.getD 0 0 + 256 * bytes.getD 1 0
           else 256 * bytes.getD 0 0 + bytes.getD 1 0
  if u < 32768 then (u : Int) else (u : Int) - 65536

/-- The signed value held by a 16-bit word. -/
def to_int16 (u : Nat) : Int :=
  if u < 32768 then (u : Int) else (u : Int) - 65536

/-- Loop body of `get_int_value_from_response`: on a little-endian host swap
the byte pair at offset `i`; on a big-endian host leave it unchanged. -/
def int_swap (little : Bool) (msg : List Nat) (i : Nat) : List Nat :=
  if little then
    let msb := msg.getD i 0
    let msg1 := msg.set i (msg.getD (i + 1) 0)
    msg1.set (i + 1) msb
  else msg

/-- `ModbusRTU.get_int_value_from_response`: read `n_bytes` from index 2,
slice the data bytes (`frame[3:-2]`), swap each byte pair on a little-endian
host, then unpack as a native signed 16-bit integer. -/
def get_int_value_from_response (little : Bool) (frame : List Nat) : Int :=
  let n_bytes := frame.getD 2 0
  let msg := (frame.drop 3).take (frame.length - 5)
  unpack_int16 little ((rangeStep n_bytes 2).foldl (int_swap little) msg)

/-- Loop body of `get_float_value_from_response`: on a little-endian host
swap the bytes inside each of the two 16-bit registers at offset `i`; on a
big-endian host swap the two registers as whole words. -/
def float_swap (little : Bool) (msg : List Nat) (i : Nat) : List Nat :=
  if little then
    let msb := msg.getD i 0
    let m1 := msg.set i (msg.getD (i + 1) 0)
    let m2 := m1.set (i + 1) msb
    let msb2 := m2.getD (i + 2) 0
    let m3 := m2.set (i + 2) (m2.getD (i + 3) 0)
    m3.set (i + 3) msb2
  else
    let msb := msg.getD i 0
    let lsb := msg.getD (i + 1) 0
    let m1 := msg.set i (msg.getD (i + 2) 0)
    let m2 := m1.set (i + 1) (m1.getD (i + 3) 0)
    let m3 := m2.set (i + 2) msb
    m3.set (i + 3) lsb

/-- `ModbusRTU.get_float_value_from_response` up to the final
`struct.unpack("1f", msg)` call: the byte buffer handed to the native
IEEE-754 interpretation after the endianness-dependent reshuffle. -/
def get_float_value_from_response_bytes (little : Bool) (frame : List Nat) : List Nat :=
  let n_bytes := frame.getD 2 0
  let msg := (frame.drop 3).take (frame.length - 5)
  (rangeStep n_bytes 4).foldl (float_swap little) msg

/-- C5: for a float response frame carrying data bytes `b0 b1 b2 b3`, the
decoder hands the native float interpretation exactly `b1 b0 b3 b2` on a
little-endian host (intra-register byte swaps) and exactly `b2 b3 b0 b1` on a
big-endian host (whole-register swap). -/
theorem c5_float_transform (u fc b0 b1 b2 b3 clo chi : Nat) :
    get_float_value_from_response_bytes true [u, fc, 4, b0, b1, b2, b3, clo, chi] =
      [b1, b0, b3, b2] ∧
    get_float_value_from_response_bytes false [u, fc, 4, b0, b1, b2, b3, clo, chi] =
      [b2, b3, b0, b1] := by
  constructor
  · show (rangeStep 4 4).foldl (float_swap true) [b0, b1, b2, b3] = [b1, b0, b3, b2]
    rfl
  · show (rangeStep 4 4).foldl (float_swap false) [b0, b1, b2, b3] = [b2, b3, b0, b1]
    rfl

/-- C6: an integer response frame with byte count 2 and data bytes `b0 b1`
decodes, on either host endianness, to the signed 16-bit value whose
big-endian wire representation is `b0 b1`; in particular the reply
`01 03 02 00 2A` followed by its CRC decodes to `42`. -/
theorem c6_int_decode :
    (∀ (little : Bool) (u fc b0 b1 clo chi : Nat),
      get_int_value_from_response little [u, fc, 2, b0, b1, clo, chi] =
        to_int16 (256 * b0 + b1)) ∧
    (∀ little : Bool,
      get_int_value_from_response little
        ([1, 3, 2, 0, 42] ++ pack_crc (computate_crc [1, 3, 2, 0, 42])) = 42) := by
  constructor
  · intro little u fc b0 b1 clo chi
    cases little
    · show unpack_int16 false ((rangeStep 2 2).foldl (int_swap false) [b0, b1]) =
        to_int16 (256 * b0 + b1)
      rfl
    · show unpack_int16 true ((rangeStep 2 2).foldl (int_swap true) [b0, b1]) =
        to_int16 (256 * b0 + b1)
      rw [show 256 * b0 + b1 = b1 + 256 * b0 by ring]
      rfl
  · intro little
    cases little <;> decide

/-- Outcome of one `sendto`/`recvfrom` round for one frame: the receive wait
raised `socket.timeout`, some other `socket.error` was raised, or a reply
payload was delivered. -/
inductive Outcome
  | timeout
  | sockErr
  | recv (payload : List Nat)
deriving DecidableEq

/-- Result of one call to `UdpProtocol.handle_messages_via_socket`: the pass
returned `None` after a timeout, raised `UnboundLocalError` (reading
`message_received` before any assignment), or returned a list of payloads. -/
inductive PassResult
  | timeout
  | nameError
  | ok (messages : List (List Nat))
deriving DecidableEq

/-- The frame loop of `handle_messages_via_socket`, with the value last bound
to `message_received` threaded explicitly (`none` = not yet assigned) and the
number of loop iterations entered (frames sent) counted alongside the result.
On `socket.error` the `except: pass` branch falls through to
`messages.append(message_received[0])`, appending the previous iteration's
payload — or failing on an unassigned `message_received`. -/
def handleAux (oracle : Nat → Outcome) :
    List (List Nat) → Nat → Option (List Nat) → List (List Nat) → PassResult × Nat
  | [], _, _, acc => (PassResult.ok acc, 0)
  | _ :: rest, i, last, acc =>
    match oracle i with
    | Outcome.timeout => (PassResult.timeout, 1)
    | Outcome.recv p =>
      let r := handleAux oracle rest (i + 1) (some p) (acc ++ [p])
      (r.1, r.2 + 1)
    | Outcome.sockErr =>
      match last with
      | none => (PassResult.nameError, 1)
      | some p =>
        let r := handleAux oracle rest (i + 1) (some p) (acc ++ [p])
        (r.1, r.2 + 1)

/-- `UdpProtocol.handle_messages_via_socket`: one full send/receive pass over
the request frames, starting at the first frame with `message_received`
unassigned and `messages = []`. -/
def handle_messages_via_socket (oracle : Nat → Outcome)
    (messages_to_send : List (List Nat)) : PassResult :=
  (handleAux oracle messages_to_send 0 none []).1

/-- Python truthiness of `received_messages` (`None` and `[]` are falsy). -/
def truthy : Option (List (List Nat)) → Bool
  | none => false
  | some [] => false
  | some (_ :: _) => true

/-- `UdpProtocol.max_receive_attempts`. -/
def max_receive_attempts : Nat := 3

/-- The `while not received_messages and receive_attempts < max_receive_attempts`
loop of `manage_received_messages`, as a fuel-indexed recursion; the fuel
passed by `manage_received_messages` strictly exceeds the maximal number of
iterations, so the zero-fuel branch is never taken.  The result is the final
`(receive_attempts, received_messages)` pair, or `Except.error` when a pass
raised on an unassigned `message_received`. -/
def retry_loop (oracles : Nat → Nat → Outcome) (msgs : List (List Nat)) :
    Nat → Nat → Option (List (List Nat)) → Except Unit (Nat × Option (List (List Nat)))
  | 0, att, received => Except.ok (att, received)
  | fuel + 1, att, received =>
    if truthy received = false ∧ att < max_receive_attempts then
      match handle_messages_via_socket (oracles att) msgs with
      | PassResult.nameError => Except.error ()
      | PassResult.timeout => retry_loop oracles msgs fuel (att + 1) none
      | PassResult.ok ms =>
        if ms.isEmpty then retry_loop oracles msgs fuel (att + 1) (some ms)
        else retry_loop oracles msgs fuel att (some ms)
    else Except.ok (att, received)

/-- Result of a communication call: `create_messages` raised
`RegisterAddressException`, the retry loop raised
`BrokenTransductorException`, a pass raised on an unassigned
`message_received`, or the call returned `received_messages`
(`None`, `[]`, or a payload list). -/
inductive CommResult
  | regAddrError
  | brokenError
  | nameError
  | ok (received : Option (List (List Nat)))
deriving DecidableEq

/-- `UdpProtocol.manage_received_messages`: reset `receive_attempts`, run the
retry loop, then raise `BrokenTransductorException` exactly when
`receive_attempts == max_receive_attempts and not transductor.broken`. -/
def manage_received_messages (oracles : Nat → Nat → Outcome)
    (msgs : List (List Nat)) (broken : Bool) : CommResult :=
  match retry_loop oracles msgs (max_receive_attempts + 2) 0 none with
  | Except.error _ => CommResult.nameError
  | Except.ok (att, received) =>
    if att = max_receive_attempts ∧ broken = false then CommResult.brokenError
    else CommResult.ok received

/-- `UdpProtocol.start_communication`: build the request frames (propagating
`RegisterAddressException`), then hand them to `manage_received_messages`. -/
def start_communication (registers : List (Nat × Nat))
    (oracles : Nat → Nat → Outcome) (broken : Bool) : CommResult :=
  match create_messages registers with
  | Except.error _ => CommResult.regAddrError
  | Except.ok msgs => manage_received_messages oracles msgs broken

/-- C1 (code bug witness): a call whose first pass receives payload `[5]` for
frame 0 and hits a non-timeout socket error on frame 1 returns successfully
with `[[5], [5]]` — the soft-errored slot is presented to the caller as a
valid response, repeating the previous frame's payload. -/
theorem c1_soft_error_stale_response :
    manage_received_messages
      (fun _ i => if i = 0 then Outcome.recv [5] else Outcome.sockErr)
      [[], []] false = CommResult.ok (some [[5], [5]]) := by
  rfl

/-- C10 (code bug witness): a non-timeout socket error on the very first
frame makes the pass read the unassigned `message_received`
(`UnboundLocalError`), and a non-timeout socket error on a later frame
appends the previous frame's payload a second time. -/
theorem c10_first_frame_error_and_stale_append :
    handle_messages_via_socket (fun _ => Outcome.sockErr) [[0]] =
      PassResult.nameError ∧
    handleAux (fun i => if i = 0 then Outcome.recv [7] else Outcome.sockErr)
      [[], []] 0 none [] = (PassResult.ok [[7], [7]], 2) := by
  constructor <;> rfl

theorem handleAux_all_recv (oracle : Nat → Outcome) (ps : Nat → List Nat) :
    ∀ (msgs : List (List Nat)) (i : Nat) (last : Option (List Nat)) (acc : List (List Nat)),
      (∀ j, j < msgs.length → oracle (i + j) = Outcome.recv (ps (i + j))) →
      handleAux oracle msgs i last acc =
        (PassResult.ok (acc ++ (List.range msgs.length).map (fun j => ps (i + j))),
          msgs.length) := by
  intro msgs
  induction msgs with
  | nil =>
    intro i last acc _
    simp [handleAux]
  | cons m rest ih =>
    intro i last acc h
    have h0 : oracle i = Outcome.recv (ps i) := by
      have := h 0 (by simp)
      simpa using this
    have hrec := ih (i + 1) (some (ps i)) (acc ++ [ps i]) (fun j hj => by
      have := h (j + 1) (by simp; omega)
      rw [show i + (j + 1) = i + 1 + j by omega] at this
      exact this)
    simp only [handleAux, h0, hrec, List.length_cons]
    have hmap : (List.range (rest.length + 1)).map (fun j => ps (i + j)) =
        ps i :: (List.range rest.length).map (fun j => ps (i + 1 + j)) := by
      rw [List.range_succ_eq_map, List.map_cons, List.map_map]
      have hfun : ((fun j => ps (i + j)) ∘ Nat.succ) = fun j => ps (i + 1 + j) := by
        funext j
        show ps (i + (j + 1)) = ps (i + 1 + j)
        congr 1
        omega
      rw [hfun, Nat.add_zero]
    rw [hmap]
    simp

theorem handleAux_timeout (oracle : Nat → Outcome) :
    ∀ (msgs : List (List Nat)) (i idx : Nat) (last : Option (List Nat)) (acc : List (List Nat)),
      idx < msgs.length →
      oracle (i + idx) = Outcome.timeout →
      (∀ j, j < idx → oracle (i + j) ≠ Outcome.timeout) →
      (∀ j, j < idx → oracle (i + j) = Outcome.sockErr →
        last.isSome = true ∨ ∃ k, k < j ∧ ∃ p, oracle (i + k) = Outcome.recv p) →
      handleAux oracle msgs i last acc = (PassResult.timeout, idx + 1) := by
  intro msgs
  induction msgs with
  | nil =>
    intro i idx last acc hidx
    simp at hidx
  | cons m rest ih =>
    intro i idx last acc hidx htime hnt hse
    cases idx with
    | zero =>
      rw [Nat.add_zero] at htime
      simp [handleAux, htime]
    | succ k =>
      have h0nt : oracle i ≠ Outcome.timeout := by
        have := hnt 0 (Nat.succ_pos k)
        simpa using this
      cases h0 : oracle i with
      | timeout => exact absurd h0 h0nt
      | recv p =>
        have hrec := ih (i + 1) k (some p) (acc ++ [p])
          (by simp at hidx ⊢; omega)
          (by rw [show i + 1 + k = i + (k + 1) by omega]; exact htime)
          (fun j hj => by
            have := hnt (j + 1) (by omega)
            rw [show i + (j + 1) = i + 1 + j by omega] at this
            exact this)
          (fun j hj _ => Or.inl rfl)
        simp [handleAux, h0, hrec]
      | sockErr =>
        have hl : last.isSome = true := by
          rcases hse 0 (Nat.succ_pos k) (by simpa using h0) with hsome | ⟨k', hk', _⟩
          · exact hsome
          · omega
        cases last with
        | none => simp at hl
        | some p =>
          have hrec := ih (i + 1) k (some p) (acc ++ [p])
            (by simp at hidx ⊢; omega)
            (by rw [show i + 1 + k = i + (k + 1) by omega]; exact htime)
            (fun j hj => by
              have := hnt (j + 1) (by omega)
              rw [show i + (j + 1) = i + 1 + j by omega] at this
              exact this)
            (fun j hj _ => Or.inl rfl)
          simp [handleAux, h0, hrec]

theorem truthy_eq_false_iff (r : Option (List (List Nat))) :
    truthy r = false ↔ r = none ∨ r = some [] := by
  cases r with
  | none => simp [truthy]
  | some l => cases l <;> simp [truthy]

theorem retry_loop_exit_max (oracles : Nat → Nat → Outcome) (msgs : List (List Nat)) :
    ∀ (fuel att : Nat) (received : Option (List (List Nat)))
      (att' : Nat) (r' : Option (List (List Nat))),
      truthy received = false →
      retry_loop oracles msgs fuel att received = Except.ok (att', r') →
      att' = max_receive_attempts →
      truthy r' = false := by
  intro fuel
  induction fuel with
  | zero =>
    intro att received att' r' hf hrun _
    simp only [retry_loop, Except.ok.injEq, Prod.mk.injEq] at hrun
    rw [← hrun.2]
    exact hf
  | succ fuel ih =>
    intro att received att' r' hf hrun hmax
    simp only [retry_loop] at hrun
    by_cases hlt : att < max_receive_attempts
    · rw [if_pos ⟨hf, hlt⟩] at hrun
      cases hh : handle_messages_via_socket (oracles att) msgs with
      | nameError =>
        rw [hh] at hrun
        exact absurd hrun (by simp)
      | timeout =>
        rw [hh] at hrun
        exact ih (att + 1) none att' r' rfl hrun hmax
      | ok ms =>
        rw [hh] at hrun
        have hrun2 : (if ms.isEmpty then retry_loop oracles msgs fuel (att + 1) (some ms)
            else retry_loop oracles msgs fuel att (some ms)) = Except.ok (att', r') := hrun
        by_cases he : ms.isEmpty
        · rw [if_pos he] at hrun2
          refine ih (att + 1) (some ms) att' r' ?_ hrun2 hmax
          rw [List.isEmpty_iff] at he
          rw [he]
          rfl
        · rw [if_neg he] at hrun2
          have htr : truthy (some ms) = true := by
            cases ms with
            | nil => simp at he
            | cons a l => rfl
          have hstep : retry_loop oracles msgs fuel att (some ms) =
              Except.ok (att, some ms) := by
            cases fuel with
            | zero => rfl
            | succ f =>
              simp only [retry_loop]
              rw [if_neg (fun hc => by rw [htr] at hc; exact Bool.noConfusion hc.1)]
          rw [hstep] at hrun2
          simp only [Except.ok.injEq, Prod.mk.injEq] at hrun2
          omega
    · rw [if_neg (fun hc => hlt hc.2)] at hrun
      simp only [Except.ok.injEq, Prod.mk.injEq] at hrun
      rw [← hrun.2]
      exact hf

/-- C4: a communication call raises `BrokenTransductorException` iff the
retry loop exits normally with `receive_attempts = max_receive_attempts` and
`broken` is false; when the loop exhausts all attempts the collected result
is empty (`None` or `[]`), so an already-broken device gets that empty result
back without an error; in every other normal exit the collected responses are
returned. -/
theorem c4_broken_signal (oracles : Nat → Nat → Outcome) (msgs : List (List Nat))
    (broken : Bool) :
    (manage_received_messages oracles msgs broken = CommResult.brokenError ↔
      broken = false ∧ ∃ received,
        retry_loop oracles msgs (max_receive_attempts + 2) 0 none =
          Except.ok (max_receive_attempts, received)) ∧
    (∀ received,
      retry_loop oracles msgs (max_receive_attempts + 2) 0 none =
        Except.ok (max_receive_attempts, received) →
      (received = none ∨ received = some []) ∧
      (broken = true →
        manage_received_messages oracles msgs broken = CommResult.ok received)) ∧
    (∀ att received,
      retry_loop oracles msgs (max_receive_attempts + 2) 0 none =
        Except.ok (att, received) →
      att ≠ max_receive_attempts →
      manage_received_messages oracles msgs broken = CommResult.ok received) := by
  refine ⟨⟨?_, ?_⟩, ?_, ?_⟩
  · intro hb
    unfold manage_received_messages at hb
    cases hres : retry_loop oracles msgs (max_receive_attempts + 2) 0 none with
    | error e =>
      rw [hres] at hb
      exact absurd hb (by simp)
    | ok p =>
      obtain ⟨att, received⟩ := p
      rw [hres] at hb
      have hb2 : (if att = max_receive_attempts ∧ broken = false then CommResult.brokenError
          else CommResult.ok received) = CommResult.brokenError := hb
      by_cases hc : att = max_receive_attempts ∧ broken = false
      · obtain ⟨h1, h2⟩ := hc
        subst h1
        exact ⟨h2, received, rfl⟩
      · rw [if_neg hc] at hb2
        exact absurd hb2 (by simp)
  · rintro ⟨hbf, received, hres⟩
    unfold manage_received_messages
    rw [hres]
    show (if max_receive_attempts = max_receive_attempts ∧ broken = false
        then CommResult.brokenError else CommResult.ok received) = CommResult.brokenError
    rw [if_pos ⟨rfl, hbf⟩]
  · intro received hres
    constructor
    · have := retry_loop_exit_max oracles msgs (max_receive_attempts + 2) 0 none
        max_receive_attempts received rfl hres rfl
      exact (truthy_eq_false_iff received).mp this
    · intro hbt
      unfold manage_received_messages
      rw [hres]
      show (if max_receive_attempts = max_receive_attempts ∧ broken = false
          then CommResult.brokenError else CommResult.ok received) = CommResult.ok received
      rw [if_neg (fun hc => by rw [hbt] at hc; exact Bool.noConfusion hc.2)]
  · intro att received hres hne
    unfold manage_received_messages
    rw [hres]
    show (if att = max_receive_attempts ∧ broken = false
        then CommResult.brokenError else CommResult.ok received) = CommResult.ok received
    rw [if_neg (fun hc => hne hc.1)]

/-- C4 witness: with one request frame and every receive attempt timing out,
a not-yet-broken device raises `BrokenTransductorException`. -/
theorem c4_witness :
    manage_received_messages (fun _ _ => Outcome.timeout) [[]] false =
      CommResult.brokenError :=
  (c4_broken_signal (fun _ _ => Outcome.timeout) [[]] false).1.mpr ⟨rfl, none, by rfl⟩

theorem retry_loop_first_pass_ok (oracles : Nat → Nat → Outcome)
    (msgs : List (List Nat)) (ms : List (List Nat)) (fuel : Nat)
    (hms : ms ≠ [])
    (hpass : handle_messages_via_socket (oracles 0) msgs = PassResult.ok ms) :
    retry_loop oracles msgs (fuel + 2) 0 none = Except.ok (0, some ms) := by
  have he : ms.isEmpty = false := by
    cases ms with
    | nil => exact absurd rfl hms
    | cons a l => rfl
  have htr : truthy (some ms) = true := by
    cases ms with
    | nil => exact absurd rfl hms
    | cons a l => rfl
  conv_lhs => rw [retry_loop]
  rw [if_pos ⟨rfl, by norm_num [max_receive_attempts]⟩, hpass]
  show (if ms.isEmpty = true then retry_loop oracles msgs (fuel + 1) (0 + 1) (some ms)
      else retry_loop oracles msgs (fuel + 1) 0 (some ms)) = Except.ok (0, some ms)
  rw [if_neg (fun hc => by rw [he] at hc; exact Bool.noConfusion hc)]
  conv_lhs => rw [retry_loop]
  rw [if_neg (fun hc => by rw [htr] at hc; exact Bool.noConfusion hc.1)]

/-- C7 counterexample: with an empty request list, the first pass vacuously
collects a valid reply for every sent frame (`PassResult.ok []`), yet the
call does not return after that pass: the empty list is falsy, so the loop
runs all three passes and raises `BrokenTransductorException`. -/
theorem c7_counterexample :
    handle_messages_via_socket (fun _ => Outcome.recv [1]) [] = PassResult.ok [] ∧
    manage_received_messages (fun _ _ => Outcome.recv [1]) [] false =
      CommResult.brokenError := by
  constructor <;> rfl

/-- C7 (amended with a non-empty request list): a communication call over at
least one frame whose first pass collects a valid reply for every sent frame
returns right after that pass — the final `receive_attempts` is 0, no second
pass is consulted (any oracle agreeing on pass 0 gives the same result), and
the responses come back in request order. -/
theorem c7_first_pass_success (oracles : Nat → Nat → Outcome)
    (msgs : List (List Nat)) (ps : Nat → List Nat)
    (hne : msgs ≠ [])
    (h : ∀ j, j < msgs.length → oracles 0 j = Outcome.recv (ps j)) :
    retry_loop oracles msgs (max_receive_attempts + 2) 0 none =
      Except.ok (0, some ((List.range msgs.length).map ps)) ∧
    (∀ (oracles2 : Nat → Nat → Outcome) (broken : Bool),
      (∀ j, oracles2 0 j = oracles 0 j) →
      manage_received_messages oracles2 msgs broken =
        CommResult.ok (some ((List.range msgs.length).map ps))) := by
  have hmapne : (List.range msgs.length).map ps ≠ [] := by
    intro hc
    rcases List.map_eq_nil_iff.mp hc with hr
    have := List.range_eq_nil.mp hr
    exact hne (List.length_eq_zero.mp this)
  have hpass : ∀ oracle2 : Nat → Outcome, (∀ j, oracle2 j = oracles 0 j) →
      handle_messages_via_socket oracle2 msgs =
        PassResult.ok ((List.range msgs.length).map ps) := by
    intro oracle2 hag
    unfold handle_messages_via_socket
    rw [handleAux_all_recv oracle2 ps msgs 0 none [] (fun j hj => by
      rw [hag (0 + j)]
      simpa using h j hj)]
    simp
  constructor
  · exact retry_loop_first_pass_ok oracles msgs _ max_receive_attempts hmapne
      (hpass (oracles 0) (fun j => rfl))
  · intro oracles2 broken hag
    have hloop := retry_loop_first_pass_ok oracles2 msgs _ max_receive_attempts hmapne
      (hpass (oracles2 0) hag)
    unfold manage_received_messages
    rw [hloop]
    show (if (0 = max_receive_attempts ∧ broken = false)
        then CommResult.brokenError
        else CommResult.ok (some ((List.range msgs.length).map ps))) =
      CommResult.ok (some ((List.range msgs.length).map ps))
    rw [if_neg (fun hc => by norm_num [max_receive_attempts] at hc)]

/-- C7 witness: one frame, reply `[9]` on the first pass — the call returns
`[[9]]` immediately. -/
theorem c7_witness :
    manage_received_messages (fun _ _ => Outcome.recv [9]) [[0]] false =
      CommResult.ok (some [[9]]) := by
  have h := (c7_first_pass_success (fun _ _ => Outcome.recv [9]) [[0]] (fun _ => [9])
    (by simp) (fun j hj => rfl)).2 (fun _ _ => Outcome.recv [9]) false (fun j => rfl)
  simpa using h

/-- C8: whenever the pass actually waits on frame `i` and that wait times
out — `i` is the first frame whose wait times out, and every earlier frame
either got a reply or hit a soft socket error preceded by some received
reply (so the loop did not die earlier on the unassigned `message_received`)
— the pass aborts at once: exactly `i + 1` frames were sent, the result is
the no-responses marker `None` regardless of the oracle beyond index `i` —
and with such a pass outcome the retry loop's next iteration re-runs the
whole batch from the first frame (fresh `message_received`, fresh
`messages`), not from mid-batch. -/
theorem c8_timeout_aborts_pass (oracle : Nat → Outcome) (msgs : List (List Nat)) (i : Nat)
    (hidx : i < msgs.length)
    (htime : oracle i = Outcome.timeout)
    (hnotime : ∀ j, j < i → oracle j ≠ Outcome.timeout)
    (hreach : ∀ j, j < i → oracle j = Outcome.sockErr →
      ∃ k, k < j ∧ ∃ p, oracle k = Outcome.recv p) :
    handleAux oracle msgs 0 none [] = (PassResult.timeout, i + 1) ∧
    (∀ (oracles : Nat → Nat → Outcome) (fuel att : Nat)
      (received : Option (List (List Nat))),
      oracles att = oracle → truthy received = false → att < max_receive_attempts →
      retry_loop oracles msgs (fuel + 1) att received =
        retry_loop oracles msgs fuel (att + 1) none) := by
  have hmain := handleAux_timeout oracle msgs 0 i none [] hidx
    (by simpa using htime)
    (fun j hj => by simpa using hnotime j hj)
    (fun j hj hs => by
      rcases hreach j hj (by simpa using hs) with ⟨k, hk, p, hp⟩
      exact Or.inr ⟨k, hk, p, by simpa using hp⟩)
  refine ⟨hmain, ?_⟩
  intro oracles fuel att received hagree hf hlt
  simp only [retry_loop]
  rw [if_pos ⟨hf, hlt⟩, hagree]
  unfold handle_messages_via_socket
  rw [hmain]

/-- C8 witness: three frames — reply `[7]` for frame 0, a soft socket error
on frame 1, a timeout on frame 2 — the pass stops after sending 3 frames and
reports no responses. -/
theorem c8_witness :
    handleAux
      (fun j => if j = 0 then Outcome.recv [7]
        else if j = 1 then Outcome.sockErr else Outcome.timeout)
      [[], [], []] 0 none [] = (PassResult.timeout, 3) :=
  (c8_timeout_aborts_pass
    (fun j => if j = 0 then Outcome.recv [7]
      else if j = 1 then Outcome.sockErr else Outcome.timeout)
    [[], [], []] 2 (by norm_num) rfl
    (fun j hj => by
      have hj2 : j = 0 ∨ j = 1 := by omega
      rcases hj2 with h | h <;> subst h <;> decide)
    (fun j hj hs => by
      have hj2 : j = 0 ∨ j = 1 := by omega
      rcases hj2 with h | h
      · subst h
        exact absurd hs (by decide)
      · subst h
        exact ⟨0, by omega, [7], rfl⟩)).1

/-- C9: a register list containing a kind that is neither Integer (`0`) nor
Float (`1`) makes frame construction fail with `RegisterAddressException` —
no partial frame list is produced — and `start_communication` propagates the
error to the caller at once, independent of the network oracle and of the
broken flag (the retry loop is never entered). -/
theorem c9_bad_kind (registers : List (Nat × Nat))
    (h : ∃ r ∈ registers, r.2 ≠ 0 ∧ r.2 ≠ 1) :
    (∃ e, create_messages registers = Except.error e) ∧
    (∀ (oracles : Nat → Nat → Outcome) (broken : Bool),
      start_communication registers oracles broken = CommResult.regAddrError) := by
  have herr : ∃ e, create_messages registers = Except.error e := by
    induction registers with
    | nil => simp at h
    | cons r rest ih =>
      obtain ⟨s, hs, hs0, hs1⟩ := h
      rcases List.mem_cons.mp hs with heq | hmem
      · subst heq
        obtain ⟨a, k⟩ := s
        simp only at hs0 hs1
        exact ⟨wrong_register_message, by simp [create_messages, hs0, hs1]⟩
      · obtain ⟨e, he⟩ := ih ⟨s, hmem, hs0, hs1⟩
        obtain ⟨a, k⟩ := r
        by_cases hk0 : k = 0
        · exact ⟨e, by simp [create_messages, hk0, he]⟩
        · by_cases hk1 : k = 1
          · exact ⟨e, by simp [create_messages, hk0, hk1, he]⟩
          · exact ⟨wrong_register_message, by simp [create_messages, hk0, hk1]⟩
  refine ⟨herr, ?_⟩
  intro oracles broken
  obtain ⟨e, he⟩ := herr
  simp [start_communication, he]

/-- C9 witness: a single register with kind `5` aborts the whole call with
the register-address error. -/
theorem c9_witness :
    start_communication [(0, 5)] (fun _ _ => Outcome.timeout) false =
      CommResult.regAddrError :=
  (c9_bad_kind [(0, 5)] ⟨(0, 5), by simp, by norm_num, by norm_num⟩).2 _ _

end DataReader
